import Mathlib

/-!
Verification of the Jarvis repository: a shallow embedding of the
orchestration engine described in the specification and of the three
HomeScreen variants in src/frontend/App.tsx, together with theorems
settling the frozen claims.
-/

namespace Jarvis

/-! ## Frontend model (src/frontend/App.tsx)

The file contains three successive HomeScreen variants.  Each variant is
embedded as a pure state-transition function: React state setters become
record updates, each axios request is recorded in an emitted request list,
and the network outcome is supplied by an environment value. -/

/-- Chat message as stored in the `messages` state list: `{id, role, type, content}`. -/
structure Msg where
  id : String
  role : String
  type : String
  content : String
deriving Repr, DecidableEq

/-- Selected document: `{uri, name, type}` from the document picker. -/
structure Doc where
  uri : String
  name : String
  type : String
deriving Repr, DecidableEq

/-- HTTP requests the component can issue, one constructor per endpoint. -/
inductive HttpRequest where
  | chat (model : String) (message : String) (file : Option String)
  | ingest (fileUri : String) (fileName : String) (fileType : String) (description : String)
  | imageRecognize (fileUri : String) (userPrompt : String) (model : String)
  | transcribe (whisperModel : String) (fileUri : String)
deriving Repr, DecidableEq

/-- JavaScript `x || d` for a string field that may be absent or empty:
`undefined` and `""` are falsy, so both fall back to the default. -/
def jsOr (v : Option String) (d : String) : String :=
  match v with
  | some s => if s = "" then d else s
  | none => d

/-- JavaScript `String.prototype.trim`, as an executable function on the
character list so that concrete inputs evaluate by `decide`. -/
def jsTrim (s : String) : String :=
  ⟨((s.data.dropWhile Char.isWhitespace).reverse.dropWhile Char.isWhitespace).reverse⟩

/-- Model-selector context from ModelContext.tsx. -/
structure Ctx where
  textModel : String
  imageModel : String
  whisperModel : String
deriving Repr, DecidableEq

/-- Response of the chat endpoint: `resp.data.response` may be absent. -/
structure ChatResp where
  response : Option String
deriving Repr, DecidableEq

/-- Response of the ingest endpoint: `resp.data.doc_id` and `resp.data.description`. -/
structure IngestResp where
  doc_id : String
  description : String
deriving Repr, DecidableEq

/-- Response of the image-recognize endpoint: `{title, description, response}`,
each possibly absent. -/
structure ImageRecogResp where
  title : Option String
  description : Option String
  response : Option String
deriving Repr, DecidableEq

/-- Response of the transcription endpoint: `resp.data.transcript` may be absent. -/
structure TranscribeResp where
  transcript : Option String
deriving Repr, DecidableEq

/-- Network environment for one `sendMessage` call: `Date.now()` plus the
outcome of whichever post the call performs.  A failed axios call carries an
optional error message (`error?.message`). -/
structure SendEnv where
  now : Nat
  chatResult : Except (Option String) ChatResp
  ingestResult : Except (Option String) IngestResp
  imageRecogResult : Except (Option String) ImageRecogResp
deriving Repr

/-- Environment for one `stopRecording` call: the file path returned by
`AudioRecord.stop()` and the outcome of the transcription post. -/
structure RecEnv where
  filePath : String
  transcribeResult : Except (Option String) TranscribeResp
deriving Repr

/-- Component state of the first HomeScreen variant (App.tsx lines 33-44):
no document attachment and no task or error lists. -/
structure HomeState1 where
  messages : List Msg
  recording : Bool
  audioFile : String
  speakerOn : Bool
  textMessage : String
  selectedImageUri : Option String
deriving Repr, DecidableEq

/-- Component state of the second HomeScreen variant (App.tsx lines 449-472). -/
structure HomeState2 where
  messages : List Msg
  recording : Bool
  audioFile : String
  speakerOn : Bool
  textMessage : String
  selectedImageUri : Option String
  selectedDoc : Option Doc
  tasksInProgress : List String
  errors : List String
  showStatusPopup : Bool
deriving Repr, DecidableEq

/-- Component state of the third HomeScreen variant (App.tsx lines 1267-1295):
no `audioFile` state. -/
structure HomeState3 where
  messages : List Msg
  recording : Bool
  textMessage : String
  selectedImageUri : Option String
  selectedDoc : Option Doc
  showAttachMenu : Bool
  tasksInProgress : List String
  errors : List String
  showStatusPopup : Bool
deriving Repr, DecidableEq

/-- Embedding of `sendMessage` of variant 1 (App.tsx lines 146-233).  Returns
the next state and the list of HTTP requests issued. -/
def sendMessage1 (ctx : Ctx) (env : SendEnv) (s : HomeState1) :
    HomeState1 × List HttpRequest :=
  -- if (!textMessage.trim() && !selectedImageUri) return;
  if (jsTrim s.textMessage) = "" ∧ s.selectedImageUri = none then (s, [])
  else
    let userMsgId := toString env.now
    let s1 :=
      if (jsTrim s.textMessage) ≠ "" then
        { s with messages := s.messages ++
            [Msg.mk (userMsgId ++ "-text") "user" "text" (jsTrim s.textMessage)] }
      else s
    let s2 :=
      match s.selectedImageUri with
      | some uri =>
          { s1 with messages := s1.messages ++
              [Msg.mk (userMsgId ++ "-img") "user" "image" uri] }
      | none => s1
    let chosenModel :=
      match s.selectedImageUri with
      | some _ => ctx.imageModel
      | none => ctx.textModel
    let req := HttpRequest.chat chosenModel (jsTrim s.textMessage) s.selectedImageUri
    let s3 := { s2 with textMessage := "", selectedImageUri := none }
    match env.chatResult with
    | .ok resp =>
        let reply := jsOr resp.response "(No response)"
        ({ s3 with messages := s3.messages ++
            [Msg.mk (toString env.now ++ "-app") "app" "text" reply] }, [req])
    | .error _ =>
        ({ s3 with messages := s3.messages ++
            [Msg.mk (toString env.now ++ "-err") "app" "text" "Error calling the model."] },
         [req])

/-- Embedding of `stopRecording` of variant 1 (App.tsx lines 88-111): stores
the audio file path, posts for transcription and, on success, sets the typed
message to the transcript; the catch branch only logs. -/
def stopRecording1 (ctx : Ctx) (env : RecEnv) (s : HomeState1) :
    HomeState1 × List HttpRequest :=
  let s0 := { s with recording := false, audioFile := env.filePath }
  let req := HttpRequest.transcribe ctx.whisperModel ("file://" ++ env.filePath)
  match env.transcribeResult with
  | .ok resp =>
      ({ s0 with textMessage := jsOr resp.transcript "" }, [req])
  | .error _ => (s0, [req])

/-- Function `addTask` of variants 2 and 3: appends a label to `tasksInProgress`. -/
def addTask2 (s : HomeState2) (label : String) : HomeState2 :=
  { s with tasksInProgress := s.tasksInProgress ++ [label] }

/-- Function `removeTask` of variants 2 and 3: filters out every occurrence of
the label. -/
def removeTask2 (s : HomeState2) (label : String) : HomeState2 :=
  { s with tasksInProgress := s.tasksInProgress.filter (· ≠ label) }

/-- Function `addError` of variants 2 and 3: appends a message to `errors`. -/
def addError2 (s : HomeState2) (msg : String) : HomeState2 :=
  { s with errors := s.errors ++ [msg] }

/-- Embedding of `stopRecording` of variant 2 (App.tsx lines 568-596). -/
def stopRecording2 (ctx : Ctx) (env : RecEnv) (s : HomeState2) :
    HomeState2 × List HttpRequest :=
  let s0 := { s with recording := false, audioFile := env.filePath }
  let s1 := addTask2 s0 "Transcription"
  let req := HttpRequest.transcribe ctx.whisperModel ("file://" ++ env.filePath)
  match env.transcribeResult with
  | .ok resp =>
      let s2 := removeTask2 s1 "Transcription"
      ({ s2 with textMessage := jsOr resp.transcript "" }, [req])
  | .error em =>
      let s2 := removeTask2 s1 "Transcription"
      let msg := jsOr em "(Network error)"
      (addError2 s2 ("Transcription failed: " ++ msg), [req])

/-- Embedding of `sendMessage` of variant 2 (App.tsx lines 656-813): a
document attachment is ingested, else an image is posted to the chat
endpoint, else non-empty trimmed text is posted to the chat endpoint. -/
def sendMessage2 (ctx : Ctx) (env : SendEnv) (s : HomeState2) :
    HomeState2 × List HttpRequest :=
  match s.selectedDoc with
  | some doc =>
      -- 1) Doc ingest
      let s1 := addTask2 s "Doc Ingestion"
      let req := HttpRequest.ingest doc.uri doc.name doc.type s.textMessage
      let s2 :=
        match env.ingestResult with
        | .ok resp =>
            let sA := removeTask2 s1 "Doc Ingestion"
            { sA with messages := sA.messages ++
                [Msg.mk ("doc-ingest-" ++ toString env.now) "app" "text"
                  ("Ingested doc_id=" ++ resp.doc_id ++ ", desc=\"" ++
                    resp.description ++ "\"")] }
        | .error em =>
            let sA := removeTask2 s1 "Doc Ingestion"
            addError2 sA ("Doc ingestion failed: " ++ jsOr em "(Network error)")
      ({ s2 with selectedDoc := none, textMessage := "" }, [req])
  | none =>
  match s.selectedImageUri with
  | some uri =>
      -- 2) Image
      let trimmed := (jsTrim s.textMessage)
      let s1 :=
        if trimmed ≠ "" then
          { s with messages := s.messages ++
              [Msg.mk (toString env.now ++ "-text") "user" "text" trimmed,
               Msg.mk (toString env.now ++ "-img") "user" "image" uri] }
        else
          { s with messages := s.messages ++
              [Msg.mk (toString env.now ++ "-img") "user" "image" uri] }
      let s2 := addTask2 s1 "Image Upload"
      let req := HttpRequest.chat ctx.imageModel trimmed (some uri)
      let s3 := { s2 with textMessage := "", selectedImageUri := none }
      match env.chatResult with
      | .ok resp =>
          let sA := removeTask2 s3 "Image Upload"
          let reply := jsOr resp.response "(No response)"
          ({ sA with messages := sA.messages ++
              [Msg.mk ("app-" ++ toString env.now) "app" "text" reply] }, [req])
      | .error em =>
          let sA := removeTask2 s3 "Image Upload"
          (addError2 sA ("Image upload failed: " ++ jsOr em "(Network error)"), [req])
  | none =>
      -- 3) Text only
      let trimmedMsg := (jsTrim s.textMessage)
      if trimmedMsg = "" then (s, [])
      else
        let s1 := { s with messages := s.messages ++
            [Msg.mk ("user-msg-" ++ toString env.now) "user" "text" trimmedMsg] }
        let s2 := addTask2 s1 "Chat Request"
        let req := HttpRequest.chat ctx.textModel trimmedMsg none
        let s3 := { s2 with textMessage := "" }
        match env.chatResult with
        | .ok resp =>
            let sA := removeTask2 s3 "Chat Request"
            let reply := jsOr resp.response "(No response)"
            ({ sA with messages := sA.messages ++
                [Msg.mk ("app-msg-" ++ toString env.now) "app" "text" reply] }, [req])
        | .error em =>
            let sA := removeTask2 s3 "Chat Request"
            (addError2 sA ("Chat request failed: " ++ jsOr em "(Network error)"), [req])

/-- Function `addTask` of variant 3. -/
def addTask3 (s : HomeState3) (label : String) : HomeState3 :=
  { s with tasksInProgress := s.tasksInProgress ++ [label] }

/-- Function `removeTask` of variant 3. -/
def removeTask3 (s : HomeState3) (label : String) : HomeState3 :=
  { s with tasksInProgress := s.tasksInProgress.filter (· ≠ label) }

/-- Function `addError` of variant 3. -/
def addError3 (s : HomeState3) (msg : String) : HomeState3 :=
  { s with errors := s.errors ++ [msg] }

/-- Embedding of `stopRecording` of variant 3 (App.tsx lines 1444-1471): like
variant 2 but with no `audioFile` state. -/
def stopRecording3 (ctx : Ctx) (env : RecEnv) (s : HomeState3) :
    HomeState3 × List HttpRequest :=
  let s0 := { s with recording := false }
  let s1 := addTask3 s0 "Transcription"
  let req := HttpRequest.transcribe ctx.whisperModel ("file://" ++ env.filePath)
  match env.transcribeResult with
  | .ok resp =>
      let s2 := removeTask3 s1 "Transcription"
      ({ s2 with textMessage := jsOr resp.transcript "" }, [req])
  | .error em =>
      let s2 := removeTask3 s1 "Transcription"
      let msg := jsOr em "(Network error)"
      (addError3 s2 ("Transcription failed: " ++ msg), [req])

/-- Embedding of `sendMessage` of variant 3 (App.tsx lines 1540-1726): doc
goes to the ingest endpoint, image to the image-recognize endpoint, text to
the chat endpoint. -/
def sendMessage3 (ctx : Ctx) (env : SendEnv) (s : HomeState3) :
    HomeState3 × List HttpRequest :=
  match s.selectedDoc with
  | some doc =>
      -- 1) If doc
      let s1 := addTask3 s "Doc Ingestion"
      let req := HttpRequest.ingest doc.uri doc.name doc.type s.textMessage
      let s2 :=
        match env.ingestResult with
        | .ok resp =>
            let sA := removeTask3 s1 "Doc Ingestion"
            { sA with messages := sA.messages ++
                [Msg.mk ("doc-ingest-" ++ toString env.now) "app" "text"
                  ("Doc Ingested => ID=" ++ resp.doc_id ++ ", Desc=\"" ++
                    resp.description ++ "\"")] }
        | .error em =>
            let sA := removeTask3 s1 "Doc Ingestion"
            addError3 sA ("Doc ingestion failed: " ++ jsOr em "(Network error)")
      ({ s2 with selectedDoc := none, textMessage := "" }, [req])
  | none =>
  match s.selectedImageUri with
  | some uri =>
      -- 2) If image => /api/image_recognize
      let trimmed := (jsTrim s.textMessage)
      let s1 :=
        if trimmed ≠ "" then
          { s with messages := s.messages ++
              [Msg.mk ("user-txt-" ++ toString env.now) "user" "text" trimmed,
               Msg.mk ("user-img-" ++ toString env.now) "user" "image" uri] }
        else
          { s with messages := s.messages ++
              [Msg.mk ("user-img-" ++ toString env.now) "user" "image" uri] }
      let s2 := addTask3 s1 "Image Recognition"
      let req := HttpRequest.imageRecognize uri trimmed ctx.imageModel
      let s3 :=
        match env.imageRecogResult with
        | .ok resp =>
            let sA := removeTask3 s2 "Image Recognition"
            let sB :=
              match resp.title with
              | some t =>
                  if t ≠ "" ∧ (jsTrim t) ≠ "" then
                    { sA with messages := sA.messages ++
                        [Msg.mk ("app-imgtitle-" ++ toString env.now) "app" "text"
                          ("<Title>" ++ t ++ "</Title>")] }
                  else sA
              | none => sA
            let sC :=
              match resp.description with
              | some d =>
                  if d ≠ "" ∧ (jsTrim d) ≠ "" then
                    { sB with messages := sB.messages ++
                        [Msg.mk ("app-imgdesc-" ++ toString env.now) "app" "text"
                          ("<Description>" ++ d ++ "</Description>")] }
                  else sB
              | none => sB
            let finalResp := jsOr resp.response "(No response)"
            { sC with messages := sC.messages ++
                [Msg.mk ("app-imgresp-" ++ toString env.now) "app" "text"
                  ("<Response>" ++ finalResp ++ "</Response>")] }
        | .error em =>
            let sA := removeTask3 s2 "Image Recognition"
            addError3 sA ("Image recognition failed: " ++ jsOr em "(Network error)")
      ({ s3 with selectedImageUri := none, textMessage := "" }, [req])
  | none =>
      -- 3) Else => normal text => /api/chat
      let trimmed := (jsTrim s.textMessage)
      if trimmed = "" then (s, [])
      else
        let s1 := { s with messages := s.messages ++
            [Msg.mk ("user-msg-" ++ toString env.now) "user" "text" trimmed] }
        let s2 := addTask3 s1 "Chat Request"
        let req := HttpRequest.chat ctx.textModel trimmed none
        let s3 := { s2 with textMessage := "" }
        match env.chatResult with
        | .ok resp =>
            let sA := removeTask3 s3 "Chat Request"
            let reply := jsOr resp.response "(No response)"
            ({ sA with messages := sA.messages ++
                [Msg.mk ("app-msg-" ++ toString env.now) "app" "text" reply] }, [req])
        | .error em =>
            let sA := removeTask3 s3 "Chat Request"
            (addError3 sA ("Chat request failed: " ++ jsOr em "(Network error)"), [req])

/-! ## Engine model

The orchestration engine itself (schema guard, block handlers, task memory,
plan queue, orchestrator loop) is specified in spec.md but its implementation
is not among the provided source files; only its prompt files are.  The
definitions below are therefore modelled from the spec, keeping the column
allow-list for `fridge_items` that the prompt files state verbatim. -/

/-- SQL action kinds accepted by the engine. -/
inductive Action where
  | SELECT
  | INSERT
  | UPDATE
  | DELETE
deriving Repr, DecidableEq

/-- Modelled from the spec: SchemaRule, per table
`{allowed_columns : set<string>, allowed_actions : set<Action>}`. -/
structure SchemaRule where
  allowed_columns : List String
  allowed_actions : List Action
deriving Repr, DecidableEq

/-- Column allow-list for `fridge_items`, stated verbatim in
src/backend/agent/prompts/sql_block_prompt.md and both plan prompts. -/
def fridgeItemsColumns : List String :=
  ["name", "quantity", "unit", "expiration_date", "category"]

/-- Schema rule for `fridge_items`: exactly the five prompt columns, all four
actions. -/
def fridgeItemsRule : SchemaRule :=
  ⟨fridgeItemsColumns, [.SELECT, .INSERT, .UPDATE, .DELETE]⟩

/-- Table allow-list, an association list from table name to rule. -/
abbrev Schema := List (String × SchemaRule)

/-- Default schema holding the `fridge_items` table of the prompts. -/
def defaultSchema : Schema := [("fridge_items", fridgeItemsRule)]

/-- Verdict of the Schema Guard. -/
inductive Verdict where
  | Ok
  | Rejected (reason : String)
deriving Repr, DecidableEq

/-- Check that a where clause is absent or empty (the spec requires a
non-empty `where_clause` for UPDATE and DELETE). -/
def whereMissing (w : Option String) : Bool :=
  match w with
  | none => true
  | some c => c = ""

/-- True exactly on the actions that require a where clause (UPDATE, DELETE). -/
def needsWhere (action : Action) : Bool :=
  match action with
  | .UPDATE => true
  | .DELETE => true
  | _ => false

/-- Modelled from the spec: Schema Guard
`validate(table, columns, action, where_clause?) → Ok | Rejected(reason)`.
Rejects unknown tables, unknown columns, disallowed actions, and UPDATE or
DELETE without a where clause.  Pure function, no side effects. -/
def validate (schema : Schema) (table : String) (columns : List String)
    (action : Action) (where_clause : Option String) : Verdict :=
  match schema.lookup table with
  | none => .Rejected "unknown table"
  | some rule =>
      if columns.all (fun c => rule.allowed_columns.contains c) then
        if rule.allowed_actions.contains action then
          if needsWhere action && whereMissing where_clause then
            .Rejected "missing where_clause"
          else .Ok
        else .Rejected "action not allowed"
      else .Rejected "unknown column"

/-- Result payload of a block: a row set, an affected-row count, a parsed
item, or free text. -/
inductive Payload where
  | rows (rs : List (List (String × String)))
  | affected (n : Nat)
  | parsed (item : List (String × String))
  | text (s : String)
deriving Repr, DecidableEq

/-- Modelled from the spec: BlockResult, the tagged variant
`Success{payload} | Failure{error, recoverable}`; a batch failure also
identifies the offending row index. -/
inductive BlockResult where
  | Success (payload : Payload)
  | Failure (error : String) (recoverable : Bool) (offendingRow : Option Nat)
deriving Repr, DecidableEq

/-- Store interface consumed by the engine:
`execute(action, table, columns, values, where_clause)` on a store state,
returning the next state and a payload, or a store-level error. -/
abbrev StoreExec (σ : Type) :=
  Action → String → List String → List String → Option String → σ →
    Except String (σ × Payload)

/-- Single SQL instruction as produced by the sql_block reasoner:
`{table_name, columns, values, action_type, where_clause?, explanation}`. -/
structure SqlInstr where
  table_name : String
  columns : List String
  values : List String
  action_type : Action
  where_clause : Option String
  explanation : String
deriving Repr, DecidableEq

/-- Modelled from the spec: sql_block handler.  Validates via the Schema
Guard, then executes exactly one statement.  The third component counts the
calls made to the store; a guard rejection makes none and is surfaced as a
non-recoverable `Failure`. -/
def runSqlBlock {σ : Type} (schema : Schema) (exec : StoreExec σ)
    (instr : SqlInstr) (store : σ) : BlockResult × σ × Nat :=
  match validate schema instr.table_name instr.columns instr.action_type
      instr.where_clause with
  | .Rejected r => (.Failure ("ValidationRejected: " ++ r) false none, store, 0)
  | .Ok =>
      match exec instr.action_type instr.table_name instr.columns instr.values
          instr.where_clause store with
      | .ok (s2, payload) => (.Success payload, s2, 1)
      | .error e => (.Failure e true none, store, 1)

/-- Row of a batch instruction: `{columns?, values?, where_clause?}`. -/
structure BatchRow where
  columns : List String
  values : List String
  where_clause : Option String
deriving Repr, DecidableEq

/-- The three batch block kinds. -/
inductive BatchKind where
  | insert
  | update
  | delete
deriving Repr, DecidableEq

/-- Action performed by each row of a batch of the given kind. -/
def rowAction : BatchKind → Action
  | .insert => .INSERT
  | .update => .UPDATE
  | .delete => .DELETE

/-- Validate one batch row through the Schema Guard. -/
def validateRow (schema : Schema) (kind : BatchKind) (table : String)
    (row : BatchRow) : Verdict :=
  validate schema table row.columns (rowAction kind) row.where_clause

/-- Index and reason of the first batch row the Schema Guard rejects,
scanning from position `i`. -/
def firstRejection (schema : Schema) (kind : BatchKind) (table : String) :
    List BatchRow → Nat → Option (Nat × String)
  | [], _ => none
  | r :: rs, i =>
      match validateRow schema kind table r with
      | .Rejected reason => some (i, reason)
      | .Ok => firstRejection schema kind table rs (i + 1)

/-- Execute batch rows in order against a working store state, reporting the
index of the first row whose store call fails. -/
def execRows {σ : Type} (exec : StoreExec σ) (kind : BatchKind) (table : String) :
    List BatchRow → σ → Nat → Except (Nat × String) σ
  | [], s, _ => .ok s
  | r :: rs, s, i =>
      match exec (rowAction kind) table r.columns r.values r.where_clause s with
      | .ok (s2, _) => execRows exec kind table rs s2 (i + 1)
      | .error e => .error (i, e)

/-- Modelled from the spec: batch_insert/batch_update/batch_delete handler.
Each row is validated by the Schema Guard before any row executes; the batch
runs as a single transaction, so a failing row rolls the whole batch back to
the original store and reports the offending index.  The third component
counts store calls. -/
def runBatch {σ : Type} (schema : Schema) (kind : BatchKind) (exec : StoreExec σ)
    (table : String) (rows : List BatchRow) (store : σ) : BlockResult × σ × Nat :=
  match firstRejection schema kind table rows 0 with
  | some (k, r) => (.Failure ("ValidationRejected: " ++ r) false (some k), store, 0)
  | none =>
      match execRows exec kind table rows store 0 with
      | .error (k, e) => (.Failure e true (some k), store, k + 1)
      | .ok s2 => (.Success (.affected rows.length), s2, rows.length)

/-- Modelled from the spec: BlockKind, the closed set of block kinds, with
the `output` terminal variant of the simpler dialect. -/
inductive BlockKind where
  | sql
  | parse
  | batch_insert
  | batch_update
  | batch_delete
  | chat
  | reflect
  | output
deriving Repr, DecidableEq

/-- Modelled from the spec: Task
`{block, description, title, reasoning, extra}`, with `extra` carrying
block-specific fields such as `final_message`. -/
structure Task where
  block : BlockKind
  description : String
  title : String
  reasoning : String
  extra : List (String × String)
deriving Repr, DecidableEq

/-- Modelled from the spec: Task Memory entry `{index, block, input, result}`. -/
structure MemEntry where
  index : Nat
  block : BlockKind
  input : String
  result : BlockResult
deriving Repr, DecidableEq

/-- Decision returned by the reflect_block reasoner: extend the plan or
terminate with a final message. -/
inductive ReflectDecision where
  | Continue (additional_tasks : List Task)
  | Terminate (final_message : String)

/-- External reasoning environment of the loop: the block reasoner producing
each non-reflect result and the reflect decision, both untrusted. -/
structure LoopEnv where
  blockResult : Task → List MemEntry → BlockResult
  reflect : List MemEntry → ReflectDecision

/-- Phase of the orchestrator state machine. -/
inductive Phase where
  | Running
  | Done (final_message : String) (truncated : Bool)
  | Failed (reason : String)
deriving Repr

/-- Modelled from the spec: Session state of the Orchestrator Loop: plan
queue, task memory, remaining REFLECTING budget, count of REFLECTING cycles
taken, and phase. -/
structure Config where
  queue : List Task
  memory : List MemEntry
  itersLeft : Nat
  reflections : Nat
  phase : Phase

/-- Display text of a payload, used for the best-effort truncation message. -/
def payloadText : Payload → String
  | .rows rs => toString rs.length ++ " rows"
  | .affected n => toString n ++ " rows affected"
  | .parsed _ => "parsed item"
  | .text s => s

/-- Texts of the Success entries of a task memory. -/
def successTexts (mem : List MemEntry) : List String :=
  mem.filterMap (fun e =>
    match e.result with
    | .Success p => some (payloadText p)
    | .Failure _ _ _ => none)

/-- Modelled from the spec: best-effort message built from the last known
Success entries plus a truncation note, used when the iteration cap forces
DONE. -/
def truncMsg (mem : List MemEntry) : String :=
  "Iteration cap reached; partial results: " ++
    String.intercalate "; " (successTexts mem)

/-- True on the DONE and FAILED phases. -/
def isTerminal (c : Config) : Bool :=
  match c.phase with
  | .Running => false
  | .Done _ _ => true
  | .Failed _ => true

/-- Modelled from the spec: one transition of the Orchestrator Loop.  A
non-reflect task is dispatched and its result appended to memory; a reflect
task either terminates, or appends its additional tasks while decrementing
the REFLECTING budget; an exhausted budget forces DONE with the truncation
message; an empty queue while running fails the session. -/
def step (env : LoopEnv) (c : Config) : Config :=
  match c.phase with
  | .Done _ _ => c
  | .Failed _ => c
  | .Running =>
      match c.queue with
      | [] => { c with phase := .Failed "plan ran out of tasks without a terminal block" }
      | t :: rest =>
          if t.block = .reflect then
            match env.reflect c.memory with
            | .Terminate msg => { c with queue := rest, phase := .Done msg false }
            | .Continue ts =>
                match c.itersLeft with
                | 0 => { c with queue := rest, phase := .Done (truncMsg c.memory) true }
                | k + 1 =>
                    { c with queue := rest ++ ts, itersLeft := k,
                             reflections := c.reflections + 1 }
          else
            { c with queue := rest,
                     memory := c.memory ++
                       [⟨c.memory.length, t.block, t.description,
                         env.blockResult t c.memory⟩] }

/-- Iterate the loop transition `n` times. -/
def stepN (env : LoopEnv) : Nat → Config → Config
  | 0, c => c
  | n + 1, c => stepN env n (step env c)

/-- Modelled from the spec: a task is terminal-shaped when it is a reflect
task or an output task carrying `final_message`. -/
def terminalShaped (t : Task) : Bool :=
  match t.block with
  | .reflect => true
  | .output => (t.extra.lookup "final_message").isSome
  | _ => false

/-- Modelled from the spec: plan acceptance check of the Planner capability:
the last task of the proposed plan must be terminal-shaped. -/
def acceptPlan (plan : List Task) : Bool :=
  match plan.getLast? with
  | none => false
  | some t => terminalShaped t

/-- Outcome of submitting a plan: either a started session or a structured
PlanInvalid error. -/
inductive PlanOutcome where
  | Accepted (c : Config)
  | PlanInvalid (reason : String)

/-- Fresh session configuration for an accepted plan: full queue, empty
memory, full REFLECTING budget. -/
def initConfig (cap : Nat) (plan : List Task) : Config :=
  ⟨plan, [], cap, 0, .Running⟩

/-- Modelled from the spec: session start.  The plan is accepted for
execution only when its last task is terminal-shaped; otherwise the engine
returns PlanInvalid before executing any task. -/
def startSession (cap : Nat) (plan : List Task) : PlanOutcome :=
  if acceptPlan plan then .Accepted (initConfig cap plan)
  else .PlanInvalid "PlanInvalid: last task is not terminal-shaped"

/-- Rows carried by a Success payload of a memory entry. -/
def entryRows (e : MemEntry) : List (List (String × String)) :=
  match e.result with
  | .Success (.rows rs) => rs
  | _ => []

/-- All rows present in Success entries of a task memory. -/
def successRows (mem : List MemEntry) : List (List (String × String)) :=
  mem.flatMap entryRows

/-- Modelled from the spec: reflect_block builds `data_output` as a
display-ready projection of retrieved rows: it selects rows present in
Success entries of task memory and keeps only the displayed columns. -/
def reflectDataOutput (mem : List MemEntry)
    (select : List (String × String) → Bool) (cols : List String) :
    List (List (String × String)) :=
  ((successRows mem).filter select).map
    (fun r => r.filter (fun kv => cols.contains kv.fst))

/-- Outcome of the reflect_block decision. -/
inductive ReflectOutcome where
  | ReportSuccess (final_message : String) (data_output : List (List (String × String)))
  | ReportFailure (final_message : String)
  | Retry (additional_tasks : List Task)

/-- Reasoning policy consumed by the modelled reflect decision: a corrective
proposal for a given error, and the behaviour on a non-failed memory. -/
structure ReflectPolicy where
  canFix : List MemEntry → String → Option (List Task)
  onOk : List MemEntry → ReflectOutcome

/-- Result of the most recent relevant task memory entry, where relevance is
an arbitrary predicate on entries. -/
def latestRelevant (relevant : MemEntry → Bool) (mem : List MemEntry) :
    Option BlockResult :=
  ((mem.filter relevant).getLast?).map (fun e => e.result)

/-- Modelled from the spec: reflect_block decision.  When the most recent
relevant entry is a Failure, it either proposes corrective tasks or
terminates with an honest failure message; it never reports success for that
operation. -/
def reflectDecide (policy : ReflectPolicy) (relevant : MemEntry → Bool)
    (mem : List MemEntry) : ReflectOutcome :=
  match latestRelevant relevant mem with
  | some (.Failure e _ _) =>
      match policy.canFix mem e with
      | some tasks => .Retry tasks
      | none => .ReportFailure ("The operation failed: " ++ e)
  | _ => policy.onOk mem

/-- Block reasoner environment for dispatching with a store: the structured
payload each block kind obtains from the reasoner, plus the store interface. -/
structure ExecEnv (σ : Type) where
  exec : StoreExec σ
  sqlOf : Task → List MemEntry → SqlInstr
  batchOf : Task → List MemEntry → String × List BatchRow
  parseResult : Task → List MemEntry → List (String × String)
  chatResult : Task → List MemEntry → String

/-- Modelled from the spec: dispatch of one task to its block handler.
Only sql and batch handlers touch the store; parse, chat, reflect and output
are pure with respect to the store and make zero store calls. -/
def dispatch {σ : Type} (schema : Schema) (env : ExecEnv σ) (t : Task)
    (mem : List MemEntry) (store : σ) : BlockResult × σ × Nat :=
  match t.block with
  | .sql => runSqlBlock schema env.exec (env.sqlOf t mem) store
  | .batch_insert =>
      let p := env.batchOf t mem
      runBatch schema .insert env.exec p.fst p.snd store
  | .batch_update =>
      let p := env.batchOf t mem
      runBatch schema .update env.exec p.fst p.snd store
  | .batch_delete =>
      let p := env.batchOf t mem
      runBatch schema .delete env.exec p.fst p.snd store
  | .parse => (.Success (.parsed (env.parseResult t mem)), store, 0)
  | .chat => (.Success (.text (env.chatResult t mem)), store, 0)
  | .reflect => (.Success (.text "reflect is handled by the loop"), store, 0)
  | .output => (.Success (.text "terminal output"), store, 0)

/-! ## Sample values used by witnesses -/

/-- Sample model-selector context. -/
def exCtx : Ctx := ⟨"text-model", "image-model", "whisper-base"⟩

/-- Sample network environment with a successful chat response. -/
def exSendEnv : SendEnv :=
  ⟨7, .ok ⟨some "hello"⟩, .ok ⟨"d1", "a doc"⟩, .ok ⟨none, none, some "seen"⟩⟩

/-- Sample recording environment whose transcription post fails. -/
def exRecEnvErr : RecEnv := ⟨"/tmp/audio1.wav", .error (some "timeout")⟩

/-- Sample variant-1 state with whitespace-only typed text and no image. -/
def exHome1 : HomeState1 := ⟨[], false, "", false, "  ", none⟩

/-- Sample variant-2 state with whitespace-only typed text, no image, no doc. -/
def exHome2 : HomeState2 := ⟨[], false, "", false, " ", none, none, ["X"], [], false⟩

/-- Sample variant-3 state with empty typed text and a pending task label. -/
def exHome3 : HomeState3 := ⟨[], false, "", none, none, false, ["Transcription"], [], false⟩

/-- Sample store interface over a unit store: every call succeeds. -/
def exExec : StoreExec Unit := fun _ _ _ _ _ s => .ok (s, .affected 1)

/-- Sample sql_block instruction using the disallowed column `item_name`. -/
def exSqlInstrBad : SqlInstr :=
  ⟨"fridge_items", ["item_name"], ["milk"], .UPDATE, some "WHERE id=1", "rename item"⟩

/-- Sample UPDATE instruction with no where clause. -/
def exSqlInstrNoWhere : SqlInstr :=
  ⟨"fridge_items", ["quantity"], ["2"], .UPDATE, none, "set quantity"⟩

/-- Sample batch rows whose second row uses the disallowed column `item_name`. -/
def exRowsBadCol : List BatchRow :=
  [⟨["quantity"], ["4"], some "WHERE id=6"⟩, ⟨["item_name"], ["x"], some "WHERE id=7"⟩]

/-- Sample batch update rows whose second row has no where clause. -/
def exRowsNoWhere : List BatchRow :=
  [⟨["quantity"], ["4"], some "WHERE id=6"⟩, ⟨["quantity"], ["2"], none⟩]

/-- Sample batch delete rows whose second row has no where clause. -/
def exRowsDelNoWhere : List BatchRow :=
  [⟨[], [], some "WHERE id=3"⟩, ⟨[], [], none⟩]

/-- Sample reflect task. -/
def exReflectTask : Task := ⟨.reflect, "reflect on results", "Reflect", "decide next", []⟩

/-- Sample sql task (not terminal-shaped). -/
def exSqlTask : Task := ⟨.sql, "select fridge items", "Select", "need data", []⟩

/-- Sample parse task. -/
def exParseTask : Task := ⟨.parse, "parse user text", "Parse", "unify fields", []⟩

/-- Sample loop environment whose reflect decision always extends the plan
with zero tasks. -/
def exLoopEnv : LoopEnv := ⟨fun _ _ => .Success (.text "ok"), fun _ => .Continue []⟩

/-- Sample running configuration with an exhausted REFLECTING budget. -/
def exCfg0 : Config := ⟨[exReflectTask], [], 0, 0, .Running⟩

/-- Sample task memory holding one Success entry with one fridge row. -/
def exMemRows : List MemEntry :=
  [⟨0, .sql, "SELECT fridge_items",
    .Success (.rows [[("name", "milk"), ("quantity", "2"), ("id", "6")]])⟩]

/-- Sample data_output row projected from the sample memory. -/
def exOutRow : List (String × String) := [("name", "milk"), ("quantity", "2")]

/-- Sample task memory whose latest entry is a Failure. -/
def exFailMem : List MemEntry :=
  [⟨0, .sql, "UPDATE fridge_items", .Failure "constraint violation" true none⟩]

/-- Sample reflect policy with no corrective proposal. -/
def exPolicy : ReflectPolicy := ⟨fun _ _ => none, fun _ => .ReportSuccess "done" []⟩

/-- Sample dispatch environment over the unit store. -/
def exExecEnv : ExecEnv Unit :=
  ⟨exExec, fun _ _ => exSqlInstrNoWhere, fun _ _ => ("fridge_items", exRowsBadCol),
   fun _ _ => [("name", "milk")], fun _ _ => "hello"⟩

/-- Sample plan whose last task is not terminal-shaped. -/
def exBadPlan : List Task := [exSqlTask]

/-! ## Theorems for the claims -/

/-- C9: for every call of HomeScreen.sendMessage (any of the three variants)
in which no document and no image is attached and the trimmed text message is
empty, the function returns without issuing any HTTP request and the whole
component state is unchanged. -/
theorem sendMessage_empty_input_noop (ctx : Ctx) (env : SendEnv)
    (s1 : HomeState1) (s2 : HomeState2) (s3 : HomeState3)
    (h1t : (jsTrim s1.textMessage) = "") (h1i : s1.selectedImageUri = none)
    (h2t : (jsTrim s2.textMessage) = "") (h2i : s2.selectedImageUri = none)
    (h2d : s2.selectedDoc = none)
    (h3t : (jsTrim s3.textMessage) = "") (h3i : s3.selectedImageUri = none)
    (h3d : s3.selectedDoc = none) :
    sendMessage1 ctx env s1 = (s1, []) ∧
    sendMessage2 ctx env s2 = (s2, []) ∧
    sendMessage3 ctx env s3 = (s3, []) := by
  refine ⟨?_, ?_, ?_⟩
  · simp [sendMessage1, h1t, h1i]
  · simp [sendMessage2, h2d, h2i, h2t]
  · simp [sendMessage3, h3d, h3i, h3t]

/-- Witness for C9 at concrete inputs: whitespace-only text, nothing
attached, in all three variants. -/
theorem sendMessage_empty_input_noop_witness :
    sendMessage1 exCtx exSendEnv exHome1 = (exHome1, []) ∧
    sendMessage2 exCtx exSendEnv exHome2 = (exHome2, []) ∧
    sendMessage3 exCtx exSendEnv exHome3 = (exHome3, []) :=
  sendMessage_empty_input_noop exCtx exSendEnv exHome1 exHome2 exHome3
    (by decide) rfl (by decide) rfl rfl (by decide) rfl rfl

/-- C10: in every HomeScreen variant, when the transcription post fails,
stopRecording handles the error: the Transcription task label is removed
from tasksInProgress and a Transcription-failed entry is appended to errors
in the variants that keep those lists, and the typed message text is left
unchanged in all variants. -/
theorem stopRecording_error_handling (ctx : Ctx) (env : RecEnv)
    (em : Option String) (h : env.transcribeResult = .error em)
    (s1 : HomeState1) (s2 : HomeState2) (s3 : HomeState3) :
    (stopRecording1 ctx env s1).fst =
      { s1 with recording := false, audioFile := env.filePath } ∧
    (stopRecording2 ctx env s2).fst.textMessage = s2.textMessage ∧
    (stopRecording2 ctx env s2).fst.tasksInProgress =
      s2.tasksInProgress.filter (· ≠ "Transcription") ∧
    "Transcription" ∉ (stopRecording2 ctx env s2).fst.tasksInProgress ∧
    (stopRecording2 ctx env s2).fst.errors =
      s2.errors ++ ["Transcription failed: " ++ jsOr em "(Network error)"] ∧
    (stopRecording3 ctx env s3).fst.textMessage = s3.textMessage ∧
    (stopRecording3 ctx env s3).fst.tasksInProgress =
      s3.tasksInProgress.filter (· ≠ "Transcription") ∧
    (stopRecording3 ctx env s3).fst.errors =
      s3.errors ++ ["Transcription failed: " ++ jsOr em "(Network error)"] := by
  refine ⟨?_, ?_, ?_, ?_, ?_, ?_, ?_, ?_⟩ <;>
    simp [stopRecording1, stopRecording2, stopRecording3, h,
      addTask2, removeTask2, addError2, addTask3, removeTask3, addError3,
      List.filter_append, List.mem_filter]

/-- Witness for C10 at concrete inputs: a failing transcription post against
sample states of the three variants. -/
theorem stopRecording_error_handling_witness :
    (stopRecording1 exCtx exRecEnvErr exHome1).fst =
      { exHome1 with recording := false, audioFile := exRecEnvErr.filePath } ∧
    (stopRecording2 exCtx exRecEnvErr exHome2).fst.textMessage = exHome2.textMessage ∧
    (stopRecording2 exCtx exRecEnvErr exHome2).fst.tasksInProgress =
      exHome2.tasksInProgress.filter (· ≠ "Transcription") ∧
    "Transcription" ∉ (stopRecording2 exCtx exRecEnvErr exHome2).fst.tasksInProgress ∧
    (stopRecording2 exCtx exRecEnvErr exHome2).fst.errors =
      exHome2.errors ++ ["Transcription failed: " ++ jsOr (some "timeout") "(Network error)"] ∧
    (stopRecording3 exCtx exRecEnvErr exHome3).fst.textMessage = exHome3.textMessage ∧
    (stopRecording3 exCtx exRecEnvErr exHome3).fst.tasksInProgress =
      exHome3.tasksInProgress.filter (· ≠ "Transcription") ∧
    (stopRecording3 exCtx exRecEnvErr exHome3).fst.errors =
      exHome3.errors ++ ["Transcription failed: " ++ jsOr (some "timeout") "(Network error)"] :=
  stopRecording_error_handling exCtx exRecEnvErr (some "timeout") rfl
    exHome1 exHome2 exHome3

/-! ## Schema Guard lemmas -/

/-- A verdict other than Ok carries a rejection reason. -/
theorem verdict_rejected (v : Verdict) (h : v ≠ .Ok) : ∃ r, v = .Rejected r := by
  cases v with
  | Ok => exact absurd rfl h
  | Rejected r => exact ⟨r, rfl⟩

/-- The Schema Guard rejects a column set containing a column outside the
allow-list of the target table, with reason `unknown column`. -/
theorem validate_rejects_unknown_column (schema : Schema) (table : String)
    (rule : SchemaRule) (hrule : schema.lookup table = some rule)
    (cols : List String) (action : Action) (wc : Option String)
    (col : String) (hc : col ∈ cols) (hno : col ∉ rule.allowed_columns) :
    validate schema table cols action wc = .Rejected "unknown column" := by
  have hPneg : ¬ ∀ x ∈ cols, x ∈ rule.allowed_columns := fun hp => hno (hp col hc)
  unfold validate
  rw [hrule]
  simp [hPneg]

/-- A verdict of Ok implies the where-clause requirement was satisfied. -/
theorem validate_ok_no_missing_where (schema : Schema) (table : String)
    (cols : List String) (action : Action) (wc : Option String)
    (h : validate schema table cols action wc = .Ok) :
    (needsWhere action && whereMissing wc) = false := by
  revert h
  unfold validate
  cases schema.lookup table with
  | none => intro h; simp at h
  | some rule =>
      cases hcw : needsWhere action && whereMissing wc with
      | false => intro _; rfl
      | true =>
          intro h
          repeat' split at h
          all_goals simp_all

/-- The Schema Guard never returns Ok for an UPDATE or DELETE whose where
clause is missing or empty. -/
theorem validate_missing_where (schema : Schema) (table : String)
    (cols : List String) (action : Action) (wc : Option String)
    (ha : action = .UPDATE ∨ action = .DELETE) (hw : whereMissing wc = true) :
    validate schema table cols action wc ≠ .Ok := by
  intro hOk
  have hres := validate_ok_no_missing_where schema table cols action wc hOk
  have hna : needsWhere action = true := by
    rcases ha with rfl | rfl <;> rfl
  rw [hna, hw] at hres
  simp at hres

/-- Scanning for the first rejected batch row yields none exactly when every
row passes the Schema Guard. -/
theorem firstRejection_eq_none (schema : Schema) (kind : BatchKind) (table : String) :
    ∀ (rows : List BatchRow) (i : Nat),
      firstRejection schema kind table rows i = none ↔
        ∀ r ∈ rows, validateRow schema kind table r = .Ok := by
  intro rows
  induction rows with
  | nil => intro i; simp [firstRejection]
  | cons r rs ih =>
      intro i
      unfold firstRejection
      cases hv : validateRow schema kind table r with
      | Rejected reason => simp [hv]
      | Ok => simp [hv, ih (i + 1)]

/-- The first rejected batch row reported by the scan is an actual row of the
batch, at the reported offset, rejected with the reported reason. -/
theorem firstRejection_some_spec (schema : Schema) (kind : BatchKind) (table : String) :
    ∀ (rows : List BatchRow) (i k : Nat) (msg : String),
      firstRejection schema kind table rows i = some (k, msg) →
      ∃ j, ∃ h : j < rows.length, k = i + j ∧
        validateRow schema kind table (rows.get ⟨j, h⟩) = .Rejected msg := by
  intro rows
  induction rows with
  | nil => intro i k msg h; simp [firstRejection] at h
  | cons r rs ih =>
      intro i k msg h
      unfold firstRejection at h
      cases hv : validateRow schema kind table r with
      | Rejected reason =>
          rw [hv] at h
          simp only [Option.some.injEq, Prod.mk.injEq] at h
          obtain ⟨rfl, rfl⟩ := h
          exact ⟨0, by simp, by omega, by simpa using hv⟩
      | Ok =>
          rw [hv] at h
          obtain ⟨j, hj, hk, hval⟩ := ih (i + 1) k msg h
          refine ⟨j + 1, by simpa using Nat.succ_lt_succ hj, by omega, ?_⟩
          simpa using hval

/-- A store-level batch failure points at an actual row of the batch, whose
store call fails from some intermediate store state. -/
theorem execRows_error_spec {σ : Type} (exec : StoreExec σ) (kind : BatchKind)
    (table : String) :
    ∀ (rows : List BatchRow) (s : σ) (i k : Nat) (e : String),
      execRows exec kind table rows s i = .error (k, e) →
      ∃ j, ∃ h : j < rows.length, k = i + j ∧
        ∃ s2, exec (rowAction kind) table (rows.get ⟨j, h⟩).columns
          (rows.get ⟨j, h⟩).values (rows.get ⟨j, h⟩).where_clause s2 = .error e := by
  intro rows
  induction rows with
  | nil => intro s i k e h; simp [execRows] at h
  | cons r rs ih =>
      intro s i k e h
      unfold execRows at h
      cases hx : exec (rowAction kind) table r.columns r.values r.where_clause s with
      | ok p =>
          obtain ⟨sp, pl⟩ := p
          rw [hx] at h
          obtain ⟨j, hj, hk, s2, hs2⟩ := ih sp (i + 1) k e (by simpa using h)
          refine ⟨j + 1, by simpa using Nat.succ_lt_succ hj, by omega, s2, ?_⟩
          simpa using hs2
      | error e0 =>
          rw [hx] at h
          simp only [Except.error.injEq, Prod.mk.injEq] at h
          obtain ⟨rfl, rfl⟩ := h
          exact ⟨0, by simp, by omega, s, by simpa using hx⟩

/-- C1: for every sql_block or batch instruction whose column set is not a
subset of the allowed columns of its target table, the Schema Guard rejects
the instruction as a non-recoverable Failure, the store is unchanged, and
zero store calls are made. -/
theorem schema_guard_rejects_before_store {σ : Type} (schema : Schema)
    (exec : StoreExec σ) (store : σ)
    (instr : SqlInstr) (rule : SchemaRule)
    (hrule : schema.lookup instr.table_name = some rule)
    (col : String) (hc : col ∈ instr.columns) (hno : col ∉ rule.allowed_columns)
    (kind : BatchKind) (table : String) (rows : List BatchRow) (rule2 : SchemaRule)
    (hrule2 : schema.lookup table = some rule2)
    (j : Nat) (hj : j < rows.length) (col2 : String)
    (hc2 : col2 ∈ (rows.get ⟨j, hj⟩).columns) (hno2 : col2 ∉ rule2.allowed_columns) :
    runSqlBlock schema exec instr store =
      (.Failure ("ValidationRejected: " ++ "unknown column") false none, store, 0) ∧
    ∃ k reason, runBatch schema kind exec table rows store =
      (.Failure ("ValidationRejected: " ++ reason) false (some k), store, 0) := by
  constructor
  · have hv := validate_rejects_unknown_column schema instr.table_name rule hrule
      instr.columns instr.action_type instr.where_clause col hc hno
    simp [runSqlBlock, hv]
  · have hbad : validateRow schema kind table (rows.get ⟨j, hj⟩) =
        .Rejected "unknown column" :=
      validate_rejects_unknown_column schema table rule2 hrule2 _ (rowAction kind) _
        col2 hc2 hno2
    have hne : firstRejection schema kind table rows 0 ≠ none := by
      intro hnone
      have hall := (firstRejection_eq_none schema kind table rows 0).mp hnone
      have hok := hall _ (List.get_mem rows j hj)
      rw [hbad] at hok
      exact Verdict.noConfusion hok
    cases hfr : firstRejection schema kind table rows 0 with
    | none => exact absurd hfr hne
    | some kr =>
        obtain ⟨k, reason⟩ := kr
        exact ⟨k, reason, by simp [runBatch, hfr]⟩

/-- Witness for C1: the column `item_name` is rejected for `fridge_items`
both as a single sql_block and inside a batch, with zero store calls. -/
theorem schema_guard_rejects_before_store_witness :
    runSqlBlock defaultSchema exExec exSqlInstrBad () =
      (.Failure ("ValidationRejected: " ++ "unknown column") false none, (), 0) ∧
    ∃ k reason, runBatch defaultSchema .update exExec "fridge_items" exRowsBadCol () =
      (.Failure ("ValidationRejected: " ++ reason) false (some k), (), 0) :=
  schema_guard_rejects_before_store defaultSchema exExec () exSqlInstrBad
    fridgeItemsRule (by decide) "item_name" (by decide) (by decide)
    .update "fridge_items" exRowsBadCol fridgeItemsRule (by decide)
    1 (by decide) "item_name" (by decide) (by decide)

/-- C2: a batch in which some row fails validation or execution commits zero
rows: the handler returns a Failure identifying the offending row and the
store state is unchanged on every error. -/
theorem batch_atomic_zero_commits {σ : Type} (schema : Schema) (kind : BatchKind)
    (exec : StoreExec σ) (table : String) (rows : List BatchRow) (store : σ) :
    (∀ k msg, firstRejection schema kind table rows 0 = some (k, msg) →
      runBatch schema kind exec table rows store =
        (.Failure ("ValidationRejected: " ++ msg) false (some k), store, 0) ∧
      ∃ h : k < rows.length,
        validateRow schema kind table (rows.get ⟨k, h⟩) = .Rejected msg) ∧
    (∀ k e, firstRejection schema kind table rows 0 = none →
      execRows exec kind table rows store 0 = .error (k, e) →
      runBatch schema kind exec table rows store =
        (.Failure e true (some k), store, k + 1) ∧
      ∃ h : k < rows.length, ∃ s2,
        exec (rowAction kind) table (rows.get ⟨k, h⟩).columns
          (rows.get ⟨k, h⟩).values (rows.get ⟨k, h⟩).where_clause s2 = .error e) ∧
    (∀ res s2 n err rec orow, runBatch schema kind exec table rows store = (res, s2, n) →
      res = .Failure err rec orow → s2 = store) := by
  refine ⟨?_, ?_, ?_⟩
  · intro k msg hfr
    refine ⟨by simp [runBatch, hfr], ?_⟩
    obtain ⟨j, hjl, hk, hval⟩ := firstRejection_some_spec schema kind table rows 0 k msg hfr
    have hkj : k = j := by omega
    subst hkj
    exact ⟨hjl, hval⟩
  · intro k e hfr hex
    refine ⟨by simp [runBatch, hfr, hex], ?_⟩
    obtain ⟨j, hjl, hk, s2, hs2⟩ := execRows_error_spec exec kind table rows store 0 k e hex
    have hkj : k = j := by omega
    subst hkj
    exact ⟨hjl, s2, hs2⟩
  · intro res s2 n err rec orow hrb hres
    subst hres
    cases hfr : firstRejection schema kind table rows 0 with
    | some kr =>
        obtain ⟨k, msg⟩ := kr
        simp [runBatch, hfr] at hrb
        exact hrb.2.1.symm
    | none =>
        cases hex : execRows exec kind table rows store 0 with
        | error ke =>
            obtain ⟨k, e⟩ := ke
            simp [runBatch, hfr, hex] at hrb
            exact hrb.2.1.symm
        | ok sOut =>
            simp [runBatch, hfr, hex] at hrb

/-- Witness for C2: a two-row batch update whose second row has no where
clause commits zero rows and reports offending row index 1. -/
theorem batch_atomic_zero_commits_witness :
    runBatch defaultSchema .update exExec "fridge_items" exRowsNoWhere () =
      (.Failure ("ValidationRejected: " ++ "missing where_clause") false (some 1), (), 0) ∧
    ∃ h : 1 < exRowsNoWhere.length,
      validateRow defaultSchema .update "fridge_items" (exRowsNoWhere.get ⟨1, h⟩) =
        .Rejected "missing where_clause" :=
  (batch_atomic_zero_commits defaultSchema .update exExec "fridge_items"
    exRowsNoWhere ()).1 1 "missing where_clause" (by decide)

/-- C3: validation of an UPDATE or DELETE mutation succeeds only when a where
clause is present; a missing where clause yields a non-recoverable validation
Failure for the single sql_block and for any batch row, with zero store
calls. -/
theorem update_delete_require_where_clause {σ : Type} (schema : Schema)
    (exec : StoreExec σ) (store : σ) (instr : SqlInstr)
    (ha : instr.action_type = .UPDATE ∨ instr.action_type = .DELETE)
    (hw : whereMissing instr.where_clause = true)
    (kind : BatchKind) (hk : rowAction kind = .UPDATE ∨ rowAction kind = .DELETE)
    (table : String) (rows : List BatchRow)
    (j : Nat) (hj : j < rows.length)
    (hwr : whereMissing (rows.get ⟨j, hj⟩).where_clause = true) :
    validate schema instr.table_name instr.columns instr.action_type
      instr.where_clause ≠ .Ok ∧
    (∃ r, runSqlBlock schema exec instr store =
      (.Failure ("ValidationRejected: " ++ r) false none, store, 0)) ∧
    validateRow schema kind table (rows.get ⟨j, hj⟩) ≠ .Ok ∧
    (∃ k r, runBatch schema kind exec table rows store =
      (.Failure ("ValidationRejected: " ++ r) false (some k), store, 0)) := by
  have h1 := validate_missing_where schema instr.table_name instr.columns
    instr.action_type instr.where_clause ha hw
  have h3 : validateRow schema kind table (rows.get ⟨j, hj⟩) ≠ .Ok :=
    validate_missing_where schema table _ (rowAction kind) _ hk hwr
  refine ⟨h1, ?_, h3, ?_⟩
  · obtain ⟨r, hr⟩ := verdict_rejected _ h1
    exact ⟨r, by simp [runSqlBlock, hr]⟩
  · have hne : firstRejection schema kind table rows 0 ≠ none := by
      intro hnone
      exact h3 ((firstRejection_eq_none schema kind table rows 0).mp hnone _
        (List.get_mem rows j hj))
    cases hfr : firstRejection schema kind table rows 0 with
    | none => exact absurd hfr hne
    | some kr =>
        obtain ⟨k, r⟩ := kr
        exact ⟨k, r, by simp [runBatch, hfr]⟩

/-- Witness for C3: an UPDATE sql_block with no where clause and a two-row
batch delete whose second row has no where clause are both rejected. -/
theorem update_delete_require_where_clause_witness :
    validate defaultSchema exSqlInstrNoWhere.table_name exSqlInstrNoWhere.columns
      exSqlInstrNoWhere.action_type exSqlInstrNoWhere.where_clause ≠ .Ok ∧
    (∃ r, runSqlBlock defaultSchema exExec exSqlInstrNoWhere () =
      (.Failure ("ValidationRejected: " ++ r) false none, (), 0)) ∧
    validateRow defaultSchema .delete "fridge_items"
      (exRowsDelNoWhere.get ⟨1, by decide⟩) ≠ .Ok ∧
    (∃ k r, runBatch defaultSchema .delete exExec "fridge_items" exRowsDelNoWhere () =
      (.Failure ("ValidationRejected: " ++ r) false (some k), (), 0)) :=
  update_delete_require_where_clause defaultSchema exExec () exSqlInstrNoWhere
    (Or.inl rfl) rfl .delete (Or.inr rfl) "fridge_items" exRowsDelNoWhere
    1 (by decide) rfl

/-! ## Orchestrator loop lemmas -/

/-- Unfolding of one iteration of `stepN`. -/
theorem stepN_succ (env : LoopEnv) (n : Nat) (c : Config) :
    stepN env (n + 1) c = stepN env n (step env c) := rfl

/-- Step on a reflect task whose decision terminates. -/
theorem step_reflect_term (env : LoopEnv) (t : Task) (rest : List Task)
    (mem : List MemEntry) (il rf : Nat) (msg : String)
    (hb : t.block = .reflect) (hr : env.reflect mem = .Terminate msg) :
    step env ⟨t :: rest, mem, il, rf, .Running⟩ =
      ⟨rest, mem, il, rf, .Done msg false⟩ := by
  simp [step, hb, hr]

/-- Step on a reflect task that wants to continue with an exhausted budget:
forced DONE with the truncation message. -/
theorem step_reflect_cap (env : LoopEnv) (t : Task) (rest ts : List Task)
    (mem : List MemEntry) (rf : Nat)
    (hb : t.block = .reflect) (hr : env.reflect mem = .Continue ts) :
    step env ⟨t :: rest, mem, 0, rf, .Running⟩ =
      ⟨rest, mem, 0, rf, .Done (truncMsg mem) true⟩ := by
  simp [step, hb, hr]

/-- Step on a reflect task that continues with remaining budget: the
additional tasks are appended and the budget decremented. -/
theorem step_reflect_continue (env : LoopEnv) (t : Task) (rest ts : List Task)
    (mem : List MemEntry) (k rf : Nat)
    (hb : t.block = .reflect) (hr : env.reflect mem = .Continue ts) :
    step env ⟨t :: rest, mem, k + 1, rf, .Running⟩ =
      ⟨rest ++ ts, mem, k, rf + 1, .Running⟩ := by
  simp [step, hb, hr]

/-- Step on a non-reflect task: dispatched and logged to memory. -/
theorem step_exec (env : LoopEnv) (t : Task) (rest : List Task)
    (mem : List MemEntry) (il rf : Nat) (hb : ¬ t.block = .reflect) :
    step env ⟨t :: rest, mem, il, rf, .Running⟩ =
      ⟨rest, mem ++ [⟨mem.length, t.block, t.description, env.blockResult t mem⟩],
       il, rf, .Running⟩ := by
  simp [step, hb]

/-- Inner induction for termination: with every strictly smaller REFLECTING
budget already known to terminate, any configuration whose budget is at most
`iters` terminates, by induction on a bound on the queue length. -/
theorem termination_aux (env : LoopEnv) (iters : Nat)
    (prev : ∀ c : Config, c.itersLeft < iters →
      ∃ n, isTerminal (stepN env n c) = true) :
    ∀ qlen (c : Config), c.itersLeft ≤ iters → c.queue.length ≤ qlen →
      ∃ n, isTerminal (stepN env n c) = true := by
  intro qlen
  induction qlen with
  | zero =>
      intro c hi hq
      obtain ⟨q, mem, il, rf, ph⟩ := c
      cases ph with
      | Done msg tr => exact ⟨0, rfl⟩
      | Failed r => exact ⟨0, rfl⟩
      | Running =>
          have hq0 : q = [] := List.eq_nil_of_length_eq_zero (Nat.le_zero.mp hq)
          subst hq0
          exact ⟨1, rfl⟩
  | succ m ih =>
      intro c hi hq
      obtain ⟨q, mem, il, rf, ph⟩ := c
      cases ph with
      | Done msg tr => exact ⟨0, rfl⟩
      | Failed r => exact ⟨0, rfl⟩
      | Running =>
          cases q with
          | nil => exact ⟨1, rfl⟩
          | cons t rest =>
              by_cases hb : t.block = .reflect
              · cases hr : env.reflect mem with
                | Terminate msg =>
                    refine ⟨1, ?_⟩
                    rw [stepN_succ, step_reflect_term env t rest mem il rf msg hb hr]
                    rfl
                | Continue ts =>
                    cases il with
                    | zero =>
                        refine ⟨1, ?_⟩
                        rw [stepN_succ, step_reflect_cap env t rest ts mem rf hb hr]
                        rfl
                    | succ k =>
                        obtain ⟨n, hn⟩ :=
                          prev ⟨rest ++ ts, mem, k, rf + 1, .Running⟩ (by simpa using hi)
                        refine ⟨n + 1, ?_⟩
                        rw [stepN_succ,
                          step_reflect_continue env t rest ts mem k rf hb hr]
                        exact hn
              · have hlen : rest.length ≤ m := by simpa using hq
                obtain ⟨n, hn⟩ := ih
                  ⟨rest, mem ++ [⟨mem.length, t.block, t.description,
                    env.blockResult t mem⟩], il, rf, .Running⟩ hi hlen
                refine ⟨n + 1, ?_⟩
                rw [stepN_succ, step_exec env t rest mem il rf hb]
                exact hn

/-- Every configuration whose REFLECTING budget is at most `iters` reaches a
terminal phase, by strong induction on the budget. -/
theorem termination_all (env : LoopEnv) :
    ∀ (iters : Nat) (c : Config), c.itersLeft ≤ iters →
      ∃ n, isTerminal (stepN env n c) = true := by
  intro iters
  induction iters using Nat.strong_induction_on with
  | _ iters ih =>
      intro c hc
      exact termination_aux env iters
        (fun c2 h2 => ih c2.itersLeft h2 c2 le_rfl) c.queue.length c hc le_rfl

/-- One step never increases the sum of taken REFLECTING cycles and the
remaining budget. -/
theorem step_budget (env : LoopEnv) (c : Config) :
    (step env c).reflections + (step env c).itersLeft ≤
      c.reflections + c.itersLeft := by
  obtain ⟨q, mem, il, rf, ph⟩ := c
  cases ph with
  | Done msg tr => simp [step]
  | Failed r => simp [step]
  | Running =>
      cases q with
      | nil => simp [step]
      | cons t rest =>
          by_cases hb : t.block = .reflect
          · cases hr : env.reflect mem with
            | Terminate msg =>
                rw [step_reflect_term env t rest mem il rf msg hb hr]
            | Continue ts =>
                cases il with
                | zero => rw [step_reflect_cap env t rest ts mem rf hb hr]
                | succ k =>
                    rw [step_reflect_continue env t rest ts mem k rf hb hr]
                    simp only []
                    omega
          · rw [step_exec env t rest mem il rf hb]

/-- The sum of taken REFLECTING cycles and remaining budget never grows over
any number of steps. -/
theorem stepN_budget (env : LoopEnv) :
    ∀ (n : Nat) (c : Config),
      (stepN env n c).reflections + (stepN env n c).itersLeft ≤
        c.reflections + c.itersLeft := by
  intro n
  induction n with
  | zero => intro c; exact le_rfl
  | succ m ih =>
      intro c
      exact le_trans (ih (step env c)) (step_budget env c)

/-- C4: for every planner output and every sequence of reflect decisions, the
orchestrator loop reaches DONE or FAILED after finitely many steps; the
number of REFLECTING cycles taken never exceeds the initial budget, and an
exhausted budget forces DONE with the truncation message. -/
theorem orchestrator_terminates (env : LoopEnv) (c : Config) :
    (∃ n, isTerminal (stepN env n c) = true) ∧
    (∀ n, (stepN env n c).reflections + (stepN env n c).itersLeft ≤
      c.reflections + c.itersLeft) ∧
    (∀ t rest ts, c.phase = .Running → c.queue = t :: rest → t.block = .reflect →
      env.reflect c.memory = .Continue ts → c.itersLeft = 0 →
      (step env c).phase = .Done (truncMsg c.memory) true) := by
  refine ⟨termination_all env c.itersLeft c le_rfl, fun n => stepN_budget env n c, ?_⟩
  intro t rest ts hp hq hb hr hi
  obtain ⟨q, mem, il, rf, ph⟩ := c
  simp only at hp hq hi hr
  subst hp
  subst hq
  subst hi
  rw [step_reflect_cap env t rest ts mem rf hb hr]

/-- Witness for C4: a session with a single reflect task, an exhausted
budget and a decision to continue terminates, and the forced step is DONE
with the truncation message. -/
theorem orchestrator_terminates_witness :
    (∃ n, isTerminal (stepN exLoopEnv n exCfg0) = true) ∧
    (step exLoopEnv exCfg0).phase = .Done (truncMsg exCfg0.memory) true :=
  ⟨(orchestrator_terminates exLoopEnv exCfg0).1,
   (orchestrator_terminates exLoopEnv exCfg0).2.2 exReflectTask [] [] rfl rfl rfl
     rfl rfl⟩

/-- C5: every row of the data_output emitted by reflect_block is a
projection of a row present in a Success entry of the same task memory: each
of its key-value pairs occurs in that Success row. -/
theorem reflect_data_output_traceable (mem : List MemEntry)
    (select : List (String × String) → Bool) (cols : List String)
    (r : List (String × String)) (hr : r ∈ reflectDataOutput mem select cols) :
    ∃ r0 ∈ successRows mem, ∀ kv ∈ r, kv ∈ r0 := by
  simp only [reflectDataOutput, List.mem_map, List.mem_filter] at hr
  obtain ⟨r0, ⟨h0, hsel⟩, rfl⟩ := hr
  exact ⟨r0, h0, fun kv hkv => (List.mem_filter.mp hkv).1⟩

/-- Witness for C5: the projected milk row traces back to the Success entry
of the sample memory. -/
theorem reflect_data_output_traceable_witness :
    ∃ r0 ∈ successRows exMemRows, ∀ kv ∈ exOutRow, kv ∈ r0 :=
  reflect_data_output_traceable exMemRows (fun _ => true) ["name", "quantity"]
    exOutRow (by decide)

/-- C6: when the most recent relevant task memory entry is a Failure, the
reflect decision never reports success: it either proposes corrective tasks
or terminates with a message stating the failure; moreover the loop only
ever appends to task memory, so no earlier Failure entry is rewritten by a
later step. -/
theorem failure_never_upgraded (policy : ReflectPolicy) (relevant : MemEntry → Bool)
    (mem : List MemEntry) (e : String) (rec : Bool) (orow : Option Nat)
    (h : latestRelevant relevant mem = some (.Failure e rec orow)) :
    (∀ m d, reflectDecide policy relevant mem ≠ .ReportSuccess m d) ∧
    ((∃ ts, reflectDecide policy relevant mem = .Retry ts) ∨
      reflectDecide policy relevant mem =
        .ReportFailure ("The operation failed: " ++ e)) ∧
    (∀ env c, ∃ tail, (step env c).memory = c.memory ++ tail) := by
  refine ⟨?_, ?_, ?_⟩
  · intro m d
    unfold reflectDecide
    rw [h]
    cases hf : policy.canFix mem e <;> simp [hf]
  · unfold reflectDecide
    rw [h]
    cases hf : policy.canFix mem e with
    | none => right; simp [hf]
    | some ts => left; exact ⟨ts, by simp [hf]⟩
  · intro env c
    obtain ⟨q, mem2, il, rf, ph⟩ := c
    cases ph with
    | Done msg tr => exact ⟨[], by simp [step]⟩
    | Failed r => exact ⟨[], by simp [step]⟩
    | Running =>
        cases q with
        | nil => exact ⟨[], by simp [step]⟩
        | cons t rest =>
            by_cases hb : t.block = .reflect
            · cases hr : env.reflect mem2 with
              | Terminate msg =>
                  exact ⟨[], by rw [step_reflect_term env t rest mem2 il rf msg hb hr]; simp⟩
              | Continue ts =>
                  cases il with
                  | zero =>
                      exact ⟨[], by rw [step_reflect_cap env t rest ts mem2 rf hb hr]; simp⟩
                  | succ k =>
                      exact ⟨[], by
                        rw [step_reflect_continue env t rest ts mem2 k rf hb hr]; simp⟩
            · exact ⟨[⟨mem2.length, t.block, t.description, env.blockResult t mem2⟩],
                by rw [step_exec env t rest mem2 il rf hb]⟩

/-- Witness for C6: on a memory whose latest entry is a failed UPDATE and a
policy with no corrective proposal, the decision is an honest failure
report, never a success report. -/
theorem failure_never_upgraded_witness :
    (∀ m d, reflectDecide exPolicy (fun _ => true) exFailMem ≠ .ReportSuccess m d) ∧
    ((∃ ts, reflectDecide exPolicy (fun _ => true) exFailMem = .Retry ts) ∨
      reflectDecide exPolicy (fun _ => true) exFailMem =
        .ReportFailure ("The operation failed: " ++ "constraint violation")) :=
  ⟨(failure_never_upgraded exPolicy (fun _ => true) exFailMem "constraint violation"
      true none rfl).1,
   (failure_never_upgraded exPolicy (fun _ => true) exFailMem "constraint violation"
      true none rfl).2.1⟩

/-- C7: a plan is accepted for execution only when its last task is
terminal-shaped; otherwise the engine returns PlanInvalid, and an accepted
session starts with the full queue and an empty memory, so no task has been
executed at validation time. -/
theorem plan_validation (cap : Nat) (plan : List Task) :
    (∀ t, plan.getLast? = some t → terminalShaped t = false →
      startSession cap plan =
        .PlanInvalid "PlanInvalid: last task is not terminal-shaped") ∧
    (plan = [] → startSession cap plan =
      .PlanInvalid "PlanInvalid: last task is not terminal-shaped") ∧
    (∀ c, startSession cap plan = .Accepted c →
      acceptPlan plan = true ∧ c.queue = plan ∧ c.memory = []) := by
  refine ⟨?_, ?_, ?_⟩
  · intro t ht hshape
    have hacc : acceptPlan plan = false := by simp [acceptPlan, ht, hshape]
    simp [startSession, hacc]
  · intro hnil
    subst hnil
    simp [startSession, acceptPlan]
  · intro c hc
    unfold startSession at hc
    by_cases ha : acceptPlan plan = true
    · rw [if_pos ha] at hc
      refine ⟨ha, ?_, ?_⟩ <;> cases hc <;> rfl
    · rw [if_neg (by simpa using ha)] at hc
      exact PlanOutcome.noConfusion hc

/-- Witness for C7: a one-task plan ending in a sql task is rejected as
PlanInvalid. -/
theorem plan_validation_witness :
    startSession 5 exBadPlan =
      .PlanInvalid "PlanInvalid: last task is not terminal-shaped" :=
  (plan_validation 5 exBadPlan).1 exSqlTask rfl rfl

/-- C8: dispatching a parse task is a pure transform: it returns the parsed
item, leaves the store unchanged and makes zero store calls; more generally
a dispatched task can change the store only if it is a sql or batch task. -/
theorem parse_block_is_pure {σ : Type} (schema : Schema) (env : ExecEnv σ)
    (t : Task) (mem : List MemEntry) (store : σ) :
    (t.block = .parse →
      dispatch schema env t mem store =
        (.Success (.parsed (env.parseResult t mem)), store, 0)) ∧
    (∀ res s2 n, dispatch schema env t mem store = (res, s2, n) → s2 ≠ store →
      (t.block = .sql ∨ t.block = .batch_insert ∨ t.block = .batch_update ∨
        t.block = .batch_delete)) := by
  refine ⟨?_, ?_⟩
  · intro hb
    simp [dispatch, hb]
  · intro res s2 n hd hs
    cases hb : t.block <;> simp [dispatch, hb] at hd <;>
      first
        | (exact absurd hd.2.1.symm hs)
        | simp [hb]

/-- Witness for C8: dispatching the sample parse task over the unit store
returns the parsed item with the store untouched and zero store calls. -/
theorem parse_block_is_pure_witness :
    dispatch defaultSchema exExecEnv exParseTask [] () =
      (.Success (.parsed (exExecEnv.parseResult exParseTask [])), (), 0) :=
  (parse_block_is_pure defaultSchema exExecEnv exParseTask [] ()).1 rfl

end Jarvis
